import Mathlib

/-!
Verification of the player-evaluation scoring engine in
src/player_scoring.py against its natural-language specification.

Modelling conventions:
* Python floats are modelled as exact rationals (ℚ).  Python's round(x, d)
  (round-half-to-even on the model value) is modelled by roundTo below.
* Python dicts keyed by strings are modelled as association lists
  (List (String × _)) with List.lookup; dict.get(k, default) becomes
  (l.lookup k).getD default.
* A missing dict key on a record is modelled with Option fields; fields that
  the source only ever reads through .get(key, 0) are modelled directly with
  default 0 (indistinguishable from a present 0 in the source).
* The one transcendental computation, 0.5 ** (i / half_life) inside
  calculate_time_decay_avg, is modelled exactly over ℝ; the function still
  returns a rational because the source rounds its result to 2 decimals.
-/

namespace PlayerScoring

/-- Integer rounding with ties to even, the rounding mode of Python's round. -/
def roundHalfEven (x : ℚ) : ℤ :=
  if x - ⌊x⌋ < 1/2 then ⌊x⌋
  else if 1/2 < x - ⌊x⌋ then ⌊x⌋ + 1
  else if 2 ∣ ⌊x⌋ then ⌊x⌋ else ⌊x⌋ + 1

/-- Model of Python round(x, d): round to d decimal digits, ties to even. -/
def roundTo (d : ℕ) (x : ℚ) : ℚ :=
  (roundHalfEven (x * 10 ^ d) : ℚ) / 10 ^ d

/-- Real-valued variant of roundHalfEven, for the time-decay computation. -/
noncomputable def roundHalfEvenR (x : ℝ) : ℤ :=
  if x - ⌊x⌋ < 1/2 then ⌊x⌋
  else if 1/2 < x - ⌊x⌋ then ⌊x⌋ + 1
  else if 2 ∣ ⌊x⌋ then ⌊x⌋ else ⌊x⌋ + 1

/-- Model of Python round(x, d) applied to a real intermediate value.  The
result is the rational the rounded float denotes. -/
noncomputable def roundToR (d : ℕ) (x : ℝ) : ℚ :=
  (roundHalfEvenR (x * 10 ^ d) : ℚ) / 10 ^ d

/-! ## Configuration (module-level constants of player_scoring.py) -/

def MODEL_VERSION : String := "player_analyst_v1.1"

def QB_WEIGHTS : List (String × ℚ) :=
  [("implied_pts", 0.40), ("ewma_fp", 0.25), ("avg", 0.20), ("matchup", 0.10),
   ("proj", 0.05)]

def RB_WEIGHTS : List (String × ℚ) :=
  [("implied_pts", 0.35), ("ewma_fp", 0.30), ("avg", 0.20), ("matchup", 0.10),
   ("proj", 0.05)]

def WR_WEIGHTS : List (String × ℚ) :=
  [("ewma_fp", 0.35), ("avg", 0.25), ("implied_pts", 0.20), ("matchup", 0.15),
   ("proj", 0.05)]

def TE_WEIGHTS : List (String × ℚ) :=
  [("avg", 0.40), ("ewma_fp", 0.25), ("implied_pts", 0.15), ("matchup", 0.15),
   ("proj", 0.05)]

def DST_WEIGHTS : List (String × ℚ) :=
  [("matchup", 0.40), ("opp_implied_low", 0.30), ("pressure", 0.15),
   ("home", 0.10), ("proj", 0.05)]

def K_WEIGHTS : List (String × ℚ) :=
  [("implied_pts", 0.50), ("proj", 0.20), ("home", 0.20), ("avg", 0.10)]

def STARTER_WEIGHTS : List (String × List (String × ℚ)) :=
  [("QB", QB_WEIGHTS), ("RB", RB_WEIGHTS), ("WR", WR_WEIGHTS),
   ("TE", TE_WEIGHTS), ("D/ST", DST_WEIGHTS), ("K", K_WEIGHTS)]

def WAIVER_WEIGHTS : List (String × ℚ) :=
  [("upside", 0.30), ("trend", 0.25), ("implied_pts", 0.20),
   ("opportunity", 0.15), ("avg", 0.10)]

def ROS_WEIGHTS : List (String × ℚ) :=
  [("avg", 0.30), ("trend", 0.25), ("implied_pts", 0.20),
   ("consistency", 0.15), ("proj", 0.10)]

def EWMA_WEIGHTS : List ℚ := [0.5, 0.3, 0.2]

def INJURY_PENALTIES : List (String × ℚ) :=
  [("ACTIVE", 0.0), ("QUESTIONABLE", -1.0), ("DOUBTFUL", -3.0),
   ("OUT", -10.0), ("IR", -10.0), ("INJURY_RESERVE", -10.0)]

def CONFIDENCE_MULTIPLIERS : List (String × ℚ) :=
  [("HIGH", 1.00), ("MEDIUM", 0.90), ("LOW", 0.80)]

/-! ## Core calculation functions -/

/-- calculate_ewma: weighted sum of the first min(len(last_n), len(weights))
recent games, rounded to 2 decimals; 0.0 for an empty list. -/
def calculate_ewma (last_n : List ℚ) (weights : List ℚ := EWMA_WEIGHTS) : ℚ :=
  if last_n = [] then 0
  else roundTo 2 (List.zipWith (· * ·) last_n weights).sum

/-- np.quantile with the default linear interpolation: virtual index
q * (n - 1) into the sorted data, interpolating between adjacent order
statistics. -/
def npQuantile (q : ℚ) (xs : List ℚ) : ℚ :=
  let s := xs.insertionSort (· ≤ ·)
  let h : ℚ := q * ((s.length : ℚ) - 1)
  let i := ⌊h⌋.toNat
  let lo := s.getD i 0
  let hi := s.getD (i + 1) lo
  lo + (h - ⌊h⌋) * (hi - lo)

/-- Lines 187-191 of normalize_score_robust: winsorize (clip) value into
lo..hi, then rescale the clipped value linearly to 0-10 and round to 1
decimal. -/
def winsorRescale (value lo hi : ℚ) : ℚ :=
  roundTo 1 (10 * (min (max value lo) hi - lo) / (hi - lo))

/-- normalize_score_robust: percentile-based normalization with
winsorization; neutral 5.0 for cohorts of fewer than 3 values or with equal
percentiles. -/
def normalize_score_robust (value : ℚ) (values_array : List ℚ)
    (lo_q : ℚ := 0.05) (hi_q : ℚ := 0.95) : ℚ :=
  if values_array.length < 3 then 5
  else if npQuantile hi_q values_array = npQuantile lo_q values_array then 5
  else winsorRescale value (npQuantile lo_q values_array)
    (npQuantile hi_q values_array)

/-- calculate_trend_score: recent form vs season average through a fixed step
function; neutral 5.0 with fewer than 2 games or a zero baseline. -/
def calculate_trend_score (last_n : List ℚ) (season_avg : ℚ) : ℚ :=
  if last_n.length < 2 ∨ season_avg = 0 then 5
  else
    let ewma := calculate_ewma last_n
    let ratio := ewma / season_avg
    if 1.3 ≤ ratio then 9
    else if 1.1 ≤ ratio then 7
    else if 0.9 ≤ ratio then 5
    else if 0.8 ≤ ratio then 4
    else 3

/-- calculate_upside_score: ceiling potential from boom rate and coefficient
of variation. -/
def calculate_upside_score (stdev : ℚ) (avg : ℚ) (boom_rate : ℚ) : ℚ :=
  if avg = 0 then 0
  else
    let cv := stdev / avg
    let upside := boom_rate * 6 + cv * 4
    min 10 (roundTo 1 upside)

/-! ## Data model -/

/-- PlayerRecord as consumed by the scoring engine.  Option fields model dict
keys whose absence the source distinguishes from any present value; the
remaining numeric fields are only ever read through .get(key, 0), so the
default 0 stands for a missing key. -/
structure Player where
  id : Option String := none
  name : Option String := none
  pos : Option String := none
  team : Option String := none
  last_n : List ℚ := []
  avg : ℚ := 0
  proj : ℚ := 0
  stdev : ℚ := 0
  boom_rate : Option ℚ := none
  boom : ℚ := 0
  inj : Option String := none
  bye : Bool := false
  opp : Option String := none
  implied_pts : Option ℚ := none
  start : ℚ := 0
  own : ℚ := 0
  home : Bool := false
  dome : Bool := false
  wind_mph : Option ℚ := none
  is_tnf : Bool := false
  is_mnf : Bool := false
  is_snf : Bool := false
deriving DecidableEq, Repr

/-- Game context: team code to the implied point total recorded for that
team.  game_details.get(team, \x7b\x7d).get('implied_pts', 22) becomes a lookup
with default 22. -/
def GameDetails : Type := List (String × ℚ)

/-- Truthiness of player.get('implied_pts'): present and nonzero. -/
def impliedTruthy (p : Player) : Bool :=
  match p.implied_pts with
  | none => false
  | some v => v != 0

/-- Python: player.get('boom_rate', 0) if 'boom_rate' in player else
player.get('boom', 0). -/
def boomOf (p : Player) : ℚ :=
  match p.boom_rate with
  | some b => b
  | none => p.boom

/-- Risk assessment triple returned by calculate_risk_index. -/
structure RiskInfo where
  risk_score : ℚ
  risk_category : String
  use_case : String
deriving DecidableEq, Repr

/-- calculate_risk_index: 60/40 composite of injury-severity and
coefficient-of-variation volatility, categorized by fixed thresholds. -/
def calculate_risk_index (injury_status : String) (stdev : ℚ) (avg : ℚ) :
    RiskInfo :=
  let injury_risk := |(INJURY_PENALTIES.lookup injury_status).getD 0| * 1
  let cv := if 0 < avg then stdev / avg else 0
  let volatility_risk := min 10 (cv * 10)
  let risk_score := injury_risk * 0.6 + volatility_risk * 0.4
  if 6 < risk_score then ⟨roundTo 1 risk_score, "HIGH", "Bench/Stash"⟩
  else if 3 < risk_score then ⟨roundTo 1 risk_score, "MEDIUM", "Flex"⟩
  else ⟨roundTo 1 risk_score, "LOW", "Core Starter"⟩

/-- calculate_matchup_score_continuous: opponent implied total rescaled into
0-10 with position-specific bounds; neutral 5.0 with no opponent or on BYE.
The source reads player['pos']; callers reach this line only with the key
present, which the analysis wrapper enforces. -/
def calculate_matchup_score_continuous (player : Player)
    (game_details : GameDetails) : ℚ :=
  match player.opp with
  | none => 5
  | some opp_team =>
    if opp_team = "" ∨ opp_team = "BYE" then 5
    else
      let opp_implied := (List.lookup opp_team game_details).getD 22
      if player.pos = some "D/ST" then
        let lo : ℚ := 14
        let hi : ℚ := 28
        let v := min (max opp_implied lo) hi
        roundTo 1 (10 * (hi - v) / (hi - lo))
      else
        let lo : ℚ := 17
        let hi : ℚ := 27
        let v := min (max opp_implied lo) hi
        roundTo 1 (10 * (v - lo) / (hi - lo))

/-- Injury-vacancy scan inside calculate_opportunity_score: a same-team,
same-position, different-id teammate with status OUT/IR/INJURY_RESERVE. -/
def vacancyBonus (player : Player) (player_pool : List Player) : ℚ :=
  if player_pool.any (fun t =>
      t.team == player.team && t.pos == player.pos &&
      (t.inj == some "OUT" || t.inj == some "IR" ||
        t.inj == some "INJURY_RESERVE") &&
      t.id != player.id)
  then 2 else 0

/-- calculate_opportunity_score: 60/40 blend of start%% and own%% normalized
within the same-position cohort, plus the injury-vacancy bonus, capped at
10. -/
def calculate_opportunity_score (player : Player)
    (player_pool : List Player) : ℚ :=
  let pos_players := player_pool.filter (fun p => p.pos == player.pos)
  if pos_players = [] then 5
  else
    let all_starts := pos_players.map (·.start)
    let all_owns := pos_players.map (·.own)
    let start_score := normalize_score_robust player.start all_starts
    let own_score := normalize_score_robust player.own all_owns
    let base := start_score * 0.6 + own_score * 0.4
    min 10 (base + vacancyBonus player player_pool)

/-- calculate_kicker_environment: home/dome/wind environment quality. -/
def calculate_kicker_environment (home : Bool) (dome : Bool := false)
    (wind_mph : Option ℚ := none) : ℚ :=
  let base : ℚ := if home then 7 else 5
  let base := if dome then base + 1.5 else base
  let base :=
    match wind_mph with
    | none => base
    | some w => if 20 ≤ w then base - 2 else if 12 ≤ w then base - 1 else base
  max 0 (min 10 base)

/-- calculate_dst_pressure_score: EWMA fantasy points normalized within the
D/ST cohort. -/
def calculate_dst_pressure_score (player : Player)
    (all_dst : List Player) : ℚ :=
  if player.pos ≠ some "D/ST" then 5
  else
    let ewma := calculate_ewma player.last_n
    let all_ewma := (all_dst.filter (fun d => d.last_n ≠ [])).map
      (fun d => calculate_ewma d.last_n)
    if all_ewma = [] then 5
    else normalize_score_robust ewma all_ewma

/-- apply_injury_penalty: add the per-status penalty, clamp at 0. -/
def apply_injury_penalty (score : ℚ) (injury_status : String) : ℚ :=
  max 0 (score + (INJURY_PENALTIES.lookup injury_status).getD 0)

/-- calculate_confidence: HIGH / MEDIUM / LOW data-quality label. -/
def calculate_confidence (player : Player) : String :=
  let games_played := player.last_n.length
  let injury_status := (player.inj).getD "ACTIVE"
  let cv := if 0 < player.avg then player.stdev / player.avg else 999
  if 3 ≤ games_played ∧ injury_status = "ACTIVE" ∧ cv < 0.5 then "HIGH"
  else if games_played < 2 ∨ injury_status ∈ ["OUT", "IR", "DOUBTFUL"] ∨
      1 < cv then "LOW"
  else "MEDIUM"

/-- The three composite scores. -/
structure Scores where
  starter_score : ℚ
  waiver_score : ℚ
  ros_score : ℚ
deriving DecidableEq, Repr

/-- apply_confidence_scaling: multiply all three scores by the per-confidence
multiplier (default 0.90 for an unknown label) and round to 2 decimals. -/
def apply_confidence_scaling (scores : Scores) (confidence : String) :
    Scores :=
  let m := (CONFIDENCE_MULTIPLIERS.lookup confidence).getD 0.90
  ⟨roundTo 2 (scores.starter_score * m),
   roundTo 2 (scores.waiver_score * m),
   roundTo 2 (scores.ros_score * m)⟩

/-! ## Weights checksum

calculate_weights_checksum serializes a weight table with
json.dumps(weights, sort_keys=True) and returns the first 8 hex characters
of its SHA-256 digest.  The stdlib pieces (json.dumps, hashlib.sha256) are
modelled by their documented semantics: FIPS 180-4 SHA-256 over bytes
(arithmetic on ℕ reduced mod 2^32), and JSON object serialization with
keys sorted by code point and default separators.  The polymorphic Python
function is monomorphized into a flat and a nested variant, matching the
two shapes of table it receives. -/

def M32 : ℕ := 2 ^ 32

def rotr32 (n x : ℕ) : ℕ := ((x >>> n) ||| (x <<< (32 - n))) % M32

def shaCh (x y z : ℕ) : ℕ := (x &&& y) ^^^ ((x ^^^ (M32 - 1)) &&& z)

def shaMaj (x y z : ℕ) : ℕ := (x &&& y) ^^^ (x &&& z) ^^^ (y &&& z)

def bigSigma0 (x : ℕ) : ℕ := rotr32 2 x ^^^ rotr32 13 x ^^^ rotr32 22 x

def bigSigma1 (x : ℕ) : ℕ := rotr32 6 x ^^^ rotr32 11 x ^^^ rotr32 25 x

def smallSigma0 (x : ℕ) : ℕ := rotr32 7 x ^^^ rotr32 18 x ^^^ (x >>> 3)

def smallSigma1 (x : ℕ) : ℕ := rotr32 17 x ^^^ rotr32 19 x ^^^ (x >>> 10)

/-- The 64 SHA-256 round constants of FIPS 180-4 (decimal: the first 32
fractional bits of the cube roots of the first 64 primes). -/
def shaK : List ℕ :=
  [1116352408, 1899447441, 3049323471, 3921009573, 961987163,
   1508970993, 2453635748, 2870763221, 3624381080, 310598401,
   607225278, 1426881987, 1925078388, 2162078206, 2614888103,
   3248222580, 3835390401, 4022224774, 264347078, 604807628,
   770255983, 1249150122, 1555081692, 1996064986, 2554220882,
   2821834349, 2952996808, 3210313671, 3336571891, 3584528711,
   113926993, 338241895, 666307205, 773529912, 1294757372,
   1396182291, 1695183700, 1986661051, 2177026350, 2456956037,
   2730485921, 2820302411, 3259730800, 3345764771, 3516065817,
   3600352804, 4094571909, 275423344, 430227734, 506948616,
   659060556, 883997877, 958139571, 1322822218, 1537002063,
   1747873779, 1955562222, 2024104815, 2227730452, 2361852424,
   2428436474, 2756734187, 3204031479, 3329325298]

/-- Working state / hash value: eight 32-bit words. -/
structure Hash8 where
  a : ℕ
  b : ℕ
  c : ℕ
  d : ℕ
  e : ℕ
  f : ℕ
  g : ℕ
  h : ℕ
deriving DecidableEq, Repr

/-- The SHA-256 initial hash value (decimal: the first 32 fractional bits of
the square roots of the first 8 primes). -/
def shaH0 : Hash8 :=
  ⟨1779033703, 3144134277, 1013904242, 2773480762,
   1359893119, 2600822924, 528734635, 1541459225⟩

/-- Big-endian 8-byte encoding of a length in bits. -/
def be64 (n : ℕ) : List ℕ :=
  (List.range 8).map (fun i => (n >>> (56 - 8 * i)) % 256)

/-- FIPS 180-4 padding: append 0x80, zero bytes to 56 mod 64, then the
64-bit big-endian bit length. -/
def shaPad (msg : List ℕ) : List ℕ :=
  let L := msg.length
  let z := (55 + 64 - (L % 64)) % 64
  msg ++ [0x80] ++ List.replicate z 0 ++ be64 (8 * L)

/-- Big-endian 32-bit words from bytes. -/
def bytesToWords : List ℕ → List ℕ
  | b0 :: b1 :: b2 :: b3 :: rest =>
    (((b0 * 256 + b1) * 256 + b2) * 256 + b3) :: bytesToWords rest
  | _ => []

/-- Split a word list into 16-word blocks. -/
def chunk16 : List ℕ → List (List ℕ)
  | [] => []
  | w :: ws => ((w :: ws).take 16) :: chunk16 ((w :: ws).drop 16)
termination_by l => l.length
decreasing_by simp [List.drop_succ_cons]; omega

/-- One extension step of the message schedule: append
sigma1(w[n-2]) + w[n-7] + sigma0(w[n-15]) + w[n-16] mod 2^32. -/
def scheduleStep (w : List ℕ) (_i : ℕ) : List ℕ :=
  let n := w.length
  w ++ [(smallSigma1 (w.getD (n - 2) 0) + w.getD (n - 7) 0 +
    smallSigma0 (w.getD (n - 15) 0) + w.getD (n - 16) 0) % M32]

/-- Extend a 16-word block to the 64-word message schedule. -/
def schedule64 (ws : List ℕ) : List ℕ := (List.range 48).foldl scheduleStep ws

/-- One of the 64 compression rounds. -/
def compressRound (st : Hash8) (kw : ℕ × ℕ) : Hash8 :=
  let t1 := (st.h + bigSigma1 st.e + shaCh st.e st.f st.g + kw.1 + kw.2) % M32
  let t2 := (bigSigma0 st.a + shaMaj st.a st.b st.c) % M32
  ⟨(t1 + t2) % M32, st.a, st.b, st.c, (st.d + t1) % M32, st.e, st.f, st.g⟩

/-- Compress one 16-word block into the running hash value. -/
def compressBlock (st : Hash8) (block : List ℕ) : Hash8 :=
  let w := schedule64 block
  let r := (shaK.zip w).foldl compressRound st
  ⟨(st.a + r.a) % M32, (st.b + r.b) % M32, (st.c + r.c) % M32,
   (st.d + r.d) % M32, (st.e + r.e) % M32, (st.f + r.f) % M32,
   (st.g + r.g) % M32, (st.h + r.h) % M32⟩

/-- SHA-256 of a byte list, as the final eight-word hash value. -/
def sha256Words (msg : List ℕ) : Hash8 :=
  (chunk16 (bytesToWords (shaPad msg))).foldl compressBlock shaH0

/-- The 256-bit digest as a natural number (big-endian word concatenation). -/
def digestNat (st : Hash8) : ℕ :=
  [st.a, st.b, st.c, st.d, st.e, st.f, st.g, st.h].foldl
    (fun acc w => acc * M32 + w % M32) 0

def sha256Nat (msg : List ℕ) : ℕ := digestNat (sha256Words msg)

/-- Bytes of an ASCII string (every string hashed here is ASCII, where the
UTF-8 encoding is the identity on code points). -/
def strBytes (s : String) : List ℕ := s.data.map (fun c => c.toNat)

/-- Lowercase hex digit. -/
def hexChar (n : ℕ) : Char :=
  if n < 10 then Char.ofNat (48 + n) else Char.ofNat (87 + n)

/-- Big-endian fixed-width hex rendering of n with k digits. -/
def hexStr (k : ℕ) (n : ℕ) : String :=
  String.mk ((List.range k).map (fun i => hexChar ((n >>> (4 * (k - 1 - i))) % 16)))

/-- hexdigest()[:8]: the 64-character hex digest of a 256-bit value starts
with the hex of its top 32 bits, so the first 8 characters are exactly
hexStr 8 of digest / 2^224. -/
def checksum_of_string (s : String) : String :=
  hexStr 8 (sha256Nat (strBytes s) / 2 ^ 224)

/-- Code-point lexicographic comparison, as Python compares str keys. -/
def charListLe : List Char → List Char → Bool
  | [], _ => true
  | _ :: _, [] => false
  | x :: xs, y :: ys =>
    if x.toNat < y.toNat then true
    else if y.toNat < x.toNat then false
    else charListLe xs ys

/-- sort_keys=True: serialize object keys in sorted order. -/
def sortByKey {α : Type} (l : List (String × α)) : List (String × α) :=
  l.insertionSort (fun p q => charListLe p.1.data q.1.data = true)

/-- Minimal k with d dividing 10^k, if any below 40 (the denominators of all
weight values are divisors of 100). -/
def decExponent (d : ℕ) : Option ℕ :=
  (List.range 40).find? (fun k => 10 ^ k % d = 0)

/-- repr of a Python float whose exact value is the rational q: the shortest
decimal denoting it, with a forced ".0" for integral values.  (Every float
serialized by the source is an exact decimal; the final case is unreachable
for such values.) -/
def floatRepr (q : ℚ) : String :=
  let sign := if q < 0 then "-" else ""
  let n := q.num.natAbs
  let d := q.den
  match decExponent d with
  | some 0 => sign ++ toString (n / d) ++ ".0"
  | some k =>
    let m := n * (10 ^ k / d)
    let ip := m / 10 ^ k
    let fp := m % 10 ^ k
    let s := toString fp
    let padded := String.mk (List.replicate (k - s.length) '0') ++ s
    let trimmed := String.mk ((padded.data.reverse.dropWhile (fun c => c = '0')).reverse)
    sign ++ toString ip ++ "." ++ (if trimmed = "" then "0" else trimmed)
  | none => sign ++ toString n ++ "/" ++ toString d

/-- json.dumps of a flat str-to-float dict with sort_keys=True and default
separators. -/
def json_dumps_flat (w : List (String × ℚ)) : String :=
  "\x7b" ++ String.intercalate ", "
    ((sortByKey w).map (fun kv => "\"" ++ kv.1 ++ "\": " ++ floatRepr kv.2)) ++
  "\x7d"

/-- json.dumps of a nested dict of weight tables (the STARTER_WEIGHTS
shape). -/
def json_dumps_nested (w : List (String × List (String × ℚ))) : String :=
  "\x7b" ++ String.intercalate ", "
    ((sortByKey w).map (fun kv => "\"" ++ kv.1 ++ "\": " ++ json_dumps_flat kv.2)) ++
  "\x7d"

/-- calculate_weights_checksum on a flat table. -/
def calculate_weights_checksum (w : List (String × ℚ)) : String :=
  checksum_of_string (json_dumps_flat w)

/-- calculate_weights_checksum on the nested starter table. -/
def calculate_weights_checksum_nested
    (w : List (String × List (String × ℚ))) : String :=
  checksum_of_string (json_dumps_nested w)

/-- The weights_checksum metadata string built in analyze_player. -/
def weights_checksum_string : String :=
  "STARTER:" ++ calculate_weights_checksum_nested STARTER_WEIGHTS ++
  "|WAIVER:" ++ calculate_weights_checksum WAIVER_WEIGHTS ++
  "|ROS:" ++ calculate_weights_checksum ROS_WEIGHTS

/-! ## Time-decayed average and the main analysis function -/

/-- calculate_time_decay_avg: weight game i by 0.5 ** (i / half_life), return
the weighted mean rounded to 2 decimals; 0.0 for empty input.  The decay
weights are transcendental reals, but the rounded result is rational. -/
noncomputable def calculate_time_decay_avg (game_history : List ℚ)
    (half_life : ℕ := 6) : ℚ :=
  if game_history = [] then 0
  else
    let weights : List ℝ := (List.range game_history.length).map
      (fun (i : ℕ) => (1/2 : ℝ) ^ ((i : ℝ) / (half_life : ℝ)))
    let weighted_sum := (List.zipWith (fun (s : ℚ) (w : ℝ) => (s : ℝ) * w)
      game_history weights).sum
    let total_weight := weights.sum
    roundToR 2 (weighted_sum / total_weight)

/-- Lines 541-545 of analyze_player: time-decay last_n when at least 3 games
are available, otherwise fall back to the raw season average. -/
noncomputable def timeDecayAvgOf (player : Player) : ℚ :=
  if player.last_n ≠ [] ∧ 3 ≤ player.last_n.length then
    calculate_time_decay_avg player.last_n
  else player.avg

/-- components.get(key, 5.0), the dict access used by the starter sum. -/
def compGet (comps : List (String × ℚ)) (key : String) : ℚ :=
  (comps.lookup key).getD 5

/-- STARTER_WEIGHTS.get(pos, STARTER_WEIGHTS['WR']). -/
def starterWeightsFor (pos : String) : List (String × ℚ) :=
  (STARTER_WEIGHTS.lookup pos).getD WR_WEIGHTS

/-- The generic starter sum of analyze_player:
sum(components.get(key, 5.0) * weight for key, weight in table.items()). -/
def starterBaseWith (table : List (String × ℚ))
    (comps : List (String × ℚ)) : ℚ :=
  (table.map (fun kw => compGet comps kw.1 * kw.2)).sum

/-- Direct dict index into a weight table (the key is always present). -/
def wtable (table : List (String × ℚ)) (key : String) : ℚ :=
  (table.lookup key).getD 0

/-- The waiver_score sum before the injury penalty. -/
def waiverBase (comps : List (String × ℚ)) : ℚ :=
  compGet comps "upside" * wtable WAIVER_WEIGHTS "upside" +
  compGet comps "trend" * wtable WAIVER_WEIGHTS "trend" +
  compGet comps "implied_pts" * wtable WAIVER_WEIGHTS "implied_pts" +
  compGet comps "opportunity" * wtable WAIVER_WEIGHTS "opportunity" +
  compGet comps "avg" * wtable WAIVER_WEIGHTS "avg"

/-- Consistency score for ROS: 10 - min(10, cv * 10), neutral 5.0 on a zero
time-decayed average. -/
def consistencyOf (player : Player) (time_decay_avg : ℚ) : ℚ :=
  if 0 < time_decay_avg then 10 - min 10 (player.stdev / time_decay_avg * 10)
  else 5

/-- The ros_score sum before the injury penalty. -/
def rosBase (comps : List (String × ℚ)) (consistency_score : ℚ) : ℚ :=
  compGet comps "avg" * wtable ROS_WEIGHTS "avg" +
  compGet comps "trend" * wtable ROS_WEIGHTS "trend" +
  compGet comps "implied_pts" * wtable ROS_WEIGHTS "implied_pts" +
  consistency_score * wtable ROS_WEIGHTS "consistency" +
  compGet comps "proj" * wtable ROS_WEIGHTS "proj"

/-- The same-position cohort (line 583): [p for p in player_pool if
p['pos'] == pos]. -/
def posPlayersOf (pos : String) (player_pool : List Player) : List Player :=
  player_pool.filter (fun p => p.pos == some pos)

/-- Line 586: implied totals of every pool player with a truthy
implied_pts - the whole pool, not the position cohort. -/
def allImpliedList (player_pool : List Player) : List ℚ :=
  (player_pool.filter impliedTruthy).map (fun p => (p.implied_pts).getD 22)

/-- Line 587: EWMA values of the position cohort members with games. -/
def posEwmaList (pos : String) (player_pool : List Player) : List ℚ :=
  ((posPlayersOf pos player_pool).filter (fun p => p.last_n ≠ [])).map
    (fun p => calculate_ewma p.last_n)

/-- Line 588: positive season averages of the position cohort. -/
def posAvgList (pos : String) (player_pool : List Player) : List ℚ :=
  ((posPlayersOf pos player_pool).map (·.avg)).filter (fun a => 0 < a)

/-- Line 589: positive projections of the position cohort. -/
def posProjList (pos : String) (player_pool : List Player) : List ℚ :=
  ((posPlayersOf pos player_pool).map (·.proj)).filter (fun x => 0 < x)

/-- The implied_pts component: normalized against the whole pool. -/
def impliedPtsComp (player : Player) (player_pool : List Player) : ℚ :=
  if impliedTruthy player then
    normalize_score_robust ((player.implied_pts).getD 22)
      (allImpliedList player_pool)
  else 5

/-- The ewma_fp component: normalized within the position cohort. -/
def ewmaFpComp (player : Player) (pos : String)
    (player_pool : List Player) : ℚ :=
  if posEwmaList pos player_pool ≠ [] then
    normalize_score_robust (calculate_ewma player.last_n)
      (posEwmaList pos player_pool)
  else 5

/-- The avg component: time-decayed average normalized within the position
cohort. -/
noncomputable def avgComp (player : Player) (pos : String)
    (player_pool : List Player) : ℚ :=
  if posAvgList pos player_pool ≠ [] then
    normalize_score_robust (timeDecayAvgOf player) (posAvgList pos player_pool)
  else 5

/-- The proj component: projection normalized within the position cohort. -/
def projComp (player : Player) (pos : String)
    (player_pool : List Player) : ℚ :=
  if posProjList pos player_pool ≠ [] ∧ 0 < player.proj then
    normalize_score_robust player.proj (posProjList pos player_pool)
  else 5

/-- The normalized-components dict of analyze_player (lines 582-610), in
insertion order: the eight base entries, then the D/ST extras, then the
kicker entry (at most one of the conditional groups is nonempty, so the
sequential dict inserts are exactly this append). -/
noncomputable def componentsOf (player : Player) (pos : String)
    (player_pool : List Player) (game_details : GameDetails) :
    List (String × ℚ) :=
  [("implied_pts", impliedPtsComp player player_pool),
   ("ewma_fp", ewmaFpComp player pos player_pool),
   ("avg", avgComp player pos player_pool),
   ("matchup", calculate_matchup_score_continuous player game_details),
   ("proj", projComp player pos player_pool),
   ("trend", calculate_trend_score player.last_n (timeDecayAvgOf player)),
   ("upside", calculate_upside_score player.stdev (timeDecayAvgOf player)
     (boomOf player)),
   ("opportunity", calculate_opportunity_score player player_pool)] ++
  (if pos = "D/ST" then
    [("opp_implied_low", calculate_matchup_score_continuous player game_details),
     ("pressure", calculate_dst_pressure_score player
       (player_pool.filter (fun p => p.pos == some "D/ST"))),
     ("home", if player.home then (7 : ℚ) else 5)]
   else []) ++
  (if pos = "K" then
    [("home", calculate_kicker_environment player.home player.dome
      player.wind_mph)]
   else [])

/-- PlayerAnalysis: the output record of analyze_player.  The rounded
per-score component echoes and the top-3 reason lists are presentation-only
projections of the fields kept here and are not separately modelled. -/
structure PlayerAnalysis where
  id : Option String
  name : Option String
  position : String
  team : Option String
  starter_score : ℚ
  waiver_score : ℚ
  ros_score : ℚ
  risk_index : ℚ
  risk_category : String
  confidence : String
  confidence_multiplier : ℚ
  components : List (String × ℚ)
  consistency_score : ℚ
  weights_checksum : String
  flags : List String
deriving DecidableEq, Repr

/-- The flags list collected at the end of analyze_player.  A record with no
inj key (None) is not in ['ACTIVE', ''] and is therefore flagged. -/
def flagsOf (player : Player) : List String :=
  (if player.bye then ["BYE"] else []) ++
  (if player.inj ∉ [some "ACTIVE", some ""] then ["INJURY"] else []) ++
  (if player.is_tnf then ["TNF"] else []) ++
  (if player.is_mnf then ["MNF"] else []) ++
  (if player.is_snf then ["SNF"] else [])

/-- analyze_player after the position key has been resolved: metrics,
normalized components, the three weighted sums, injury penalty, confidence
scaling, and the assembled output record. -/
noncomputable def analyzePlayerCore (player : Player) (pos : String)
    (player_pool : List Player) (game_details : GameDetails) :
    PlayerAnalysis :=
  let time_decay_avg := timeDecayAvgOf player
  let inj := (player.inj).getD "ACTIVE"
  let comps := componentsOf player pos player_pool game_details
  let risk := calculate_risk_index inj player.stdev time_decay_avg
  let consistency_score := consistencyOf player time_decay_avg
  let starter_score := starterBaseWith (starterWeightsFor pos) comps
  let waiver_score := waiverBase comps
  let ros_score := rosBase comps consistency_score
  let starter_score := apply_injury_penalty starter_score inj
  let waiver_score := apply_injury_penalty waiver_score inj
  let ros_score := apply_injury_penalty ros_score inj
  let confidence := calculate_confidence player
  let scores := apply_confidence_scaling
    ⟨starter_score, waiver_score, ros_score⟩ confidence
  { id := player.id
    name := player.name
    position := pos
    team := player.team
    starter_score := scores.starter_score
    waiver_score := scores.waiver_score
    ros_score := scores.ros_score
    risk_index := risk.risk_score
    risk_category := risk.risk_category
    confidence := confidence
    confidence_multiplier := (CONFIDENCE_MULTIPLIERS.lookup confidence).getD 0.90
    components := comps
    consistency_score := consistency_score
    weights_checksum := weights_checksum_string
    flags := flagsOf player }

/-- analyze_player: the source raises KeyError on player['pos'] (line 532)
when the record has no position, and on p['pos'] inside the cohort
comprehensions (lines 579, 583) when any pool record has none; otherwise it
returns the analysis. -/
noncomputable def analyzePlayer (player : Player) (player_pool : List Player)
    (game_details : GameDetails) : Except String PlayerAnalysis :=
  match player.pos with
  | none => Except.error "KeyError: pos"
  | some pos =>
    if player_pool.all (fun p => p.pos.isSome) then
      Except.ok (analyzePlayerCore player pos player_pool game_details)
    else Except.error "KeyError: pos"

/-- Python dict assignment results[pid] = a: replace an existing binding,
else append. -/
def insertReplace (m : List (String × PlayerAnalysis)) (k : String)
    (v : PlayerAnalysis) : List (String × PlayerAnalysis) :=
  if (m.lookup k).isSome then
    m.map (fun kv => if kv.1 = k then (k, v) else kv)
  else m ++ [(k, v)]

/-- The try/except body of the analyze_players loop for a record with a
truthy id: store the analysis under the id, or print an error line and
continue. -/
noncomputable def analyzeRecord (player_pool : List Player)
    (game_details : GameDetails)
    (acc : List (String × PlayerAnalysis) × List String) (player : Player)
    (pid : String) : List (String × PlayerAnalysis) × List String :=
  match analyzePlayer player player_pool game_details with
  | Except.ok a => (insertReplace acc.1 pid a, acc.2)
  | Except.error e =>
    (acc.1, acc.2 ++
      ["Error analyzing " ++ (player.name).getD "Unknown" ++ ": " ++ e])

/-- One iteration of the analyze_players loop: skip records whose id is
missing or falsy with no trace, otherwise run the try/except body. -/
noncomputable def analyzeStep (player_pool : List Player)
    (game_details : GameDetails)
    (acc : List (String × PlayerAnalysis) × List String) (player : Player) :
    List (String × PlayerAnalysis) × List String :=
  match player.id with
  | none => acc
  | some pid =>
    if pid = "" then acc
    else analyzeRecord player_pool game_details acc player pid

/-- analyze_players: fold the loop over the pool, starting from an empty
result dict and no printed error lines.  The second component collects the
print output of the except branch. -/
noncomputable def analyze_players (players : List Player)
    (game_details : GameDetails) :
    List (String × PlayerAnalysis) × List String :=
  players.foldl (analyzeStep players game_details) ([], [])

/-! ## Concrete records used by counterexamples and witnesses -/

/-- QB with a strong implied total, in a pool whose QB cohort has exactly 2
players. -/
def qbA : Player := { id := some "qbA", pos := some "QB", implied_pts := some 30 }

def qbB : Player := { id := some "qbB", pos := some "QB", implied_pts := some 10 }

def rbA : Player := { id := some "rbA", pos := some "RB", implied_pts := some 20 }

def rbB : Player := { id := some "rbB", pos := some "RB", implied_pts := some 21 }

def rbC : Player := { id := some "rbC", pos := some "RB", implied_pts := some 22 }

/-- A pool with exactly 2 QBs and 3 RBs, all with distinct implied totals. -/
def pool5 : List Player := [qbA, qbB, rbA, rbB, rbC]

/-- A record with an unrecognized position string. -/
def flexP : Player := { id := some "fx", pos := some "FLEX", avg := 9 }

/-- A record with two games of history and a season average. -/
def twoGameP : Player := { id := some "tg", pos := some "WR", last_n := [12, 8], avg := 11 }

/-- A record whose id key is missing. -/
def noIdP : Player := { pos := some "QB" }

/-- A well-formed record. -/
def goodP : Player := { id := some "g1", pos := some "QB", avg := 7 }

/-- WAIVER_WEIGHTS with its first value replaced by an arbitrary rational:
a table differing from WAIVER_WEIGHTS (and from any other instance of this
family) in exactly the single 'upside' entry. -/
def modWaiver (x : ℚ) : List (String × ℚ) :=
  [("upside", x), ("trend", 0.25), ("implied_pts", 0.20),
   ("opportunity", 0.15), ("avg", 0.10)]

/-- A starter table that violates the sum-to-1 configuration invariant: the
QB table with implied_pts lowered from 0.40 to 0.30, summing to 0.90. -/
def badQbTable : List (String × ℚ) :=
  [("implied_pts", 0.30), ("ewma_fp", 0.25), ("avg", 0.20), ("matchup", 0.10),
   ("proj", 0.05)]

/-- Truthiness of player.get('id'): present and not the empty string. -/
def hasGoodId (p : Player) : Bool :=
  match p.id with
  | none => false
  | some s => s != ""

/-! ## Helper lemmas: rounding -/

theorem roundHalfEven_nonneg {x : ℚ} (hx : 0 ≤ x) : 0 ≤ roundHalfEven x := by
  unfold roundHalfEven
  have h0 : (0 : ℤ) ≤ ⌊x⌋ := Int.floor_nonneg.mpr hx
  split
  · exact h0
  · split
    · omega
    · split <;> omega

theorem roundHalfEven_le {x : ℚ} {B : ℤ} (hx : x ≤ B) : roundHalfEven x ≤ B := by
  unfold roundHalfEven
  have hfl : ⌊x⌋ ≤ B := by
    have := Int.floor_le_floor hx
    simpa using this
  rcases eq_or_lt_of_le hfl with heq | hlt
  · have hf : x - ⌊x⌋ ≤ 0 := by
      have hcast : (⌊x⌋ : ℚ) = (B : ℚ) := by exact_mod_cast heq
      have hxB : x ≤ (⌊x⌋ : ℚ) := by rw [hcast]; exact_mod_cast hx
      linarith
    have hlt2 : x - ⌊x⌋ < 1/2 := by linarith
    simp only [if_pos hlt2]
    exact hfl
  · split
    · exact hfl
    · split
      · omega
      · split <;> omega

theorem roundTo_nonneg {x : ℚ} (d : ℕ) (hx : 0 ≤ x) : 0 ≤ roundTo d x := by
  unfold roundTo
  have h1 : (0 : ℤ) ≤ roundHalfEven (x * 10 ^ d) :=
    roundHalfEven_nonneg (by positivity)
  have h2 : (0 : ℚ) ≤ (roundHalfEven (x * 10 ^ d) : ℚ) := by exact_mod_cast h1
  positivity

theorem roundTo_le_int {x : ℚ} (d : ℕ) {B : ℤ} (hx : x ≤ B) : roundTo d x ≤ B := by
  unfold roundTo
  have h1 : roundHalfEven (x * 10 ^ d) ≤ B * 10 ^ d := by
    apply roundHalfEven_le
    have hp : (0 : ℚ) < 10 ^ d := by positivity
    calc x * 10 ^ d ≤ (B : ℚ) * 10 ^ d := by
          exact mul_le_mul_of_nonneg_right hx (le_of_lt hp)
      _ = ((B * 10 ^ d : ℤ) : ℚ) := by push_cast; ring
  have h2 : (roundHalfEven (x * 10 ^ d) : ℚ) ≤ (B : ℚ) * 10 ^ d := by
    exact_mod_cast h1
  have hp : (0 : ℚ) < 10 ^ d := by positivity
  rw [div_le_iff₀ hp]
  exact h2

/-! ## Helper lemmas: the normalizer -/

theorem normalize_short {v : ℚ} {arr : List ℚ} {lo_q hi_q : ℚ}
    (h : arr.length < 3) : normalize_score_robust v arr lo_q hi_q = 5 := by
  unfold normalize_score_robust
  simp [h]

theorem winsorRescale_bounds (v : ℚ) {lo hi : ℚ} (hne : hi ≠ lo) :
    0 ≤ winsorRescale v lo hi ∧ winsorRescale v lo hi ≤ 10 := by
  unfold winsorRescale
  rcases le_or_lt lo hi with hle | hgt
  · have hlt : lo < hi := lt_of_le_of_ne hle (fun hc => hne hc.symm)
    have hv1 : lo ≤ min (max v lo) hi := le_min (le_max_right v lo) hle
    have hv2 : min (max v lo) hi ≤ hi := min_le_right _ _
    have hpos : 0 < hi - lo := sub_pos.mpr hlt
    constructor
    · apply roundTo_nonneg
      apply div_nonneg
      · have h0 : 0 ≤ min (max v lo) hi - lo := sub_nonneg.mpr hv1
        nlinarith
      · linarith
    · have hrat : 10 * (min (max v lo) hi - lo) / (hi - lo) ≤ ((10 : ℤ) : ℚ) := by
        rw [div_le_iff₀ hpos]
        push_cast
        nlinarith
      calc roundTo 1 (10 * (min (max v lo) hi - lo) / (hi - lo))
          ≤ ((10 : ℤ) : ℚ) := roundTo_le_int 1 hrat
        _ = 10 := by norm_num
  · have hmax : hi ≤ max v lo := le_trans (le_of_lt hgt) (le_max_right v lo)
    have hveq : min (max v lo) hi = hi := min_eq_right hmax
    rw [hveq]
    have hden : hi - lo ≠ 0 := fun hc => hne (by linarith [sub_eq_zero.mp hc])
    have h10 : 10 * (hi - lo) / (hi - lo) = 10 := by field_simp
    rw [h10]
    refine ⟨roundTo_nonneg 1 (by norm_num), ?_⟩
    calc roundTo 1 (10 : ℚ) ≤ ((10 : ℤ) : ℚ) := roundTo_le_int 1 (by norm_num)
      _ = 10 := by norm_num

theorem normalize_bounds (v : ℚ) (arr : List ℚ) (lo_q hi_q : ℚ) :
    0 ≤ normalize_score_robust v arr lo_q hi_q ∧
      normalize_score_robust v arr lo_q hi_q ≤ 10 := by
  unfold normalize_score_robust
  split
  · norm_num
  · split
    · norm_num
    · rename_i hlen hne
      exact winsorRescale_bounds v hne

/-- Claim C4: normalize_score_robust always lands in the closed interval
0..10; cohorts with fewer than 3 values, or with equal low and high
percentiles, get the neutral 5.0. -/
theorem claim_C4 (value : ℚ) (arr : List ℚ) :
    (0 ≤ normalize_score_robust value arr ∧
      normalize_score_robust value arr ≤ 10) ∧
    (arr.length < 3 → normalize_score_robust value arr = 5) ∧
    (npQuantile 0.05 arr = npQuantile 0.95 arr →
      normalize_score_robust value arr = 5) := by
  refine ⟨normalize_bounds value arr 0.05 0.95, fun h => normalize_short h, fun heq => ?_⟩
  unfold normalize_score_robust
  split
  · rfl
  · rw [if_pos heq.symm]

/-- Witness for C4 at concrete cohorts. -/
theorem claim_C4_witness :
    (0 ≤ normalize_score_robust 7 [1, 2, 3, 4] ∧
      normalize_score_robust 7 [1, 2, 3, 4] ≤ 10) ∧
    normalize_score_robust 7 [1, 2] = 5 ∧
    normalize_score_robust 7 [5, 5, 5] = 5 :=
  ⟨(claim_C4 7 [1, 2, 3, 4]).1,
   (claim_C4 7 [1, 2]).2.1 (by decide),
   (claim_C4 7 [5, 5, 5]).2.2 (by with_unfolding_all decide)⟩

/-! ## Claim C1: cohort scoping of the percentile normalization -/

/-- Counterexample to C1 as stated: pool5 has exactly 2 players at position
QB, yet the QB qbA gets the normalized implied_pts component 10.0, not 5.0,
because line 586 of analyze_player builds the implied_pts cohort from the
whole player pool (5 values here), not the position cohort. -/
theorem claim_C1_counterexample :
    (posPlayersOf "QB" pool5).length = 2 ∧
    compGet ((analyzePlayerCore qbA "QB" pool5 []).components) "implied_pts" = 10 ∧
    compGet ((analyzePlayerCore qbA "QB" pool5 []).components) "implied_pts" ≠ 5 := by
  refine ⟨by decide, ?_, ?_⟩ <;> with_unfolding_all decide

/-- Claim C1 as amended: the ewma_fp, avg and proj components and the two
opportunity inputs are normalized within the position cohort, so a position
cohort of exactly 2 players makes all of them neutral; the implied_pts
component is normalized against the whole pool and is exempt. -/
theorem compGet_ewma_fp (p : Player) (pos : String) (pool : List Player)
    (gd : GameDetails) :
    compGet (componentsOf p pos pool gd) "ewma_fp" = ewmaFpComp p pos pool := rfl

theorem compGet_avg (p : Player) (pos : String) (pool : List Player)
    (gd : GameDetails) :
    compGet (componentsOf p pos pool gd) "avg" = avgComp p pos pool := rfl

theorem compGet_proj (p : Player) (pos : String) (pool : List Player)
    (gd : GameDetails) :
    compGet (componentsOf p pos pool gd) "proj" = projComp p pos pool := rfl

theorem claim_C1 (p : Player) (pos : String) (pool : List Player)
    (gd : GameDetails) (hpos : p.pos = some pos)
    (hco : (posPlayersOf pos pool).length = 2) :
    compGet (componentsOf p pos pool gd) "ewma_fp" = 5 ∧
    compGet (componentsOf p pos pool gd) "avg" = 5 ∧
    compGet (componentsOf p pos pool gd) "proj" = 5 ∧
    normalize_score_robust p.start ((posPlayersOf pos pool).map (·.start)) = 5 ∧
    normalize_score_robust p.own ((posPlayersOf pos pool).map (·.own)) = 5 ∧
    calculate_opportunity_score p pool = min 10 (5 + vacancyBonus p pool) := by
  have hewma : (posEwmaList pos pool).length < 3 := by
    unfold posEwmaList
    rw [List.length_map]
    have h1 := List.length_filter_le (fun q => q.last_n ≠ [])
      (posPlayersOf pos pool)
    omega
  have havg : (posAvgList pos pool).length < 3 := by
    unfold posAvgList
    have h1 := List.length_filter_le (fun a => 0 < a)
      ((posPlayersOf pos pool).map (·.avg))
    rw [List.length_map] at h1
    omega
  have hproj : (posProjList pos pool).length < 3 := by
    unfold posProjList
    have h1 := List.length_filter_le (fun x => 0 < x)
      ((posPlayersOf pos pool).map (·.proj))
    rw [List.length_map] at h1
    omega
  have hmap : ∀ (f : Player → ℚ), ((posPlayersOf pos pool).map f).length < 3 := by
    intro f
    rw [List.length_map]
    omega
  refine ⟨?_, ?_, ?_, normalize_short (hmap _), normalize_short (hmap _), ?_⟩
  · rw [compGet_ewma_fp]
    unfold ewmaFpComp
    split
    · exact normalize_short hewma
    · rfl
  · rw [compGet_avg]
    unfold avgComp
    split
    · exact normalize_short havg
    · rfl
  · rw [compGet_proj]
    unfold projComp
    split
    · exact normalize_short hproj
    · rfl
  · simp only [calculate_opportunity_score]
    have hfe : pool.filter (fun q => q.pos == p.pos) = posPlayersOf pos pool := by
      unfold posPlayersOf
      rw [hpos]
    rw [hfe]
    have hne : posPlayersOf pos pool ≠ [] := by
      intro hc
      rw [hc] at hco
      simp at hco
    rw [if_neg hne]
    rw [normalize_short (hmap _), normalize_short (hmap _)]
    norm_num

/-- Witness for the amended C1 on the concrete 2-QB pool. -/
theorem claim_C1_witness :
    compGet (componentsOf qbA "QB" pool5 []) "ewma_fp" = 5 ∧
    compGet (componentsOf qbA "QB" pool5 []) "avg" = 5 ∧
    compGet (componentsOf qbA "QB" pool5 []) "proj" = 5 ∧
    normalize_score_robust qbA.start ((posPlayersOf "QB" pool5).map (·.start)) = 5 ∧
    normalize_score_robust qbA.own ((posPlayersOf "QB" pool5).map (·.own)) = 5 ∧
    calculate_opportunity_score qbA pool5 = min 10 (5 + vacancyBonus qbA pool5) :=
  claim_C1 qbA "QB" pool5 [] rfl (by decide)

/-! ## Helper lemmas: the composite-score pipeline -/

theorem core_starter (p : Player) (pos : String) (pool : List Player)
    (gd : GameDetails) :
    (analyzePlayerCore p pos pool gd).starter_score =
      roundTo 2 (apply_injury_penalty
        (starterBaseWith (starterWeightsFor pos) (componentsOf p pos pool gd))
        ((p.inj).getD "ACTIVE") *
        (CONFIDENCE_MULTIPLIERS.lookup (calculate_confidence p)).getD 0.90) := rfl

theorem core_waiver (p : Player) (pos : String) (pool : List Player)
    (gd : GameDetails) :
    (analyzePlayerCore p pos pool gd).waiver_score =
      roundTo 2 (apply_injury_penalty (waiverBase (componentsOf p pos pool gd))
        ((p.inj).getD "ACTIVE") *
        (CONFIDENCE_MULTIPLIERS.lookup (calculate_confidence p)).getD 0.90) := rfl

theorem core_ros (p : Player) (pos : String) (pool : List Player)
    (gd : GameDetails) :
    (analyzePlayerCore p pos pool gd).ros_score =
      roundTo 2 (apply_injury_penalty
        (rosBase (componentsOf p pos pool gd)
          (consistencyOf p (timeDecayAvgOf p)))
        ((p.inj).getD "ACTIVE") *
        (CONFIDENCE_MULTIPLIERS.lookup (calculate_confidence p)).getD 0.90) := rfl

theorem multOf_mem (c : String) :
    (CONFIDENCE_MULTIPLIERS.lookup c).getD 0.90 = 1 ∨
    (CONFIDENCE_MULTIPLIERS.lookup c).getD 0.90 = 0.90 ∨
    (CONFIDENCE_MULTIPLIERS.lookup c).getD 0.90 = 0.80 := by
  by_cases h1 : c = "HIGH"
  · subst h1; left; with_unfolding_all decide
  · by_cases h2 : c = "MEDIUM"
    · subst h2; right; left; with_unfolding_all decide
    · by_cases h3 : c = "LOW"
      · subst h3; right; right; with_unfolding_all decide
      · right; left
        have b1 : (c == "HIGH") = false := beq_eq_false_iff_ne.mpr h1
        have b2 : (c == "MEDIUM") = false := beq_eq_false_iff_ne.mpr h2
        have b3 : (c == "LOW") = false := beq_eq_false_iff_ne.mpr h3
        simp [CONFIDENCE_MULTIPLIERS, List.lookup, b1, b2, b3]

theorem multiplier_nonneg (c : String) :
    0 ≤ (CONFIDENCE_MULTIPLIERS.lookup c).getD 0.90 := by
  rcases multOf_mem c with h | h | h <;> rw [h] <;> norm_num

theorem roundTo_zero (d : ℕ) : roundTo d 0 = 0 := by
  unfold roundTo roundHalfEven
  norm_num

theorem comp_score_nonneg (s : ℚ) (i c : String) :
    0 ≤ roundTo 2 (apply_injury_penalty s i *
      (CONFIDENCE_MULTIPLIERS.lookup c).getD 0.90) := by
  apply roundTo_nonneg
  apply mul_nonneg
  · exact le_max_left 0 _
  · exact multiplier_nonneg c

/-! ## Claim C3: composite scores are never negative -/

/-- Claim C3: for every player record (any injury status, recognized or
not), each composite score of a returned PlayerAnalysis is nonnegative: the
injury penalty is clamped at 0 and the confidence multiplier is
nonnegative. -/
theorem claim_C3 (p : Player) (pool : List Player) (gd : GameDetails)
    (a : PlayerAnalysis) (h : analyzePlayer p pool gd = Except.ok a) :
    0 ≤ a.starter_score ∧ 0 ≤ a.waiver_score ∧ 0 ≤ a.ros_score := by
  rcases hpos : p.pos with _ | pos
  · have he : analyzePlayer p pool gd = Except.error "KeyError: pos" := by
      unfold analyzePlayer
      rw [hpos]
    rw [he] at h
    exact Except.noConfusion h
  · by_cases hall : pool.all (fun q => q.pos.isSome) = true
    · have hok : analyzePlayer p pool gd =
          Except.ok (analyzePlayerCore p pos pool gd) := by
        unfold analyzePlayer
        rw [hpos]
        exact if_pos hall
      rw [hok] at h
      have ha : analyzePlayerCore p pos pool gd = a := by injection h
      subst ha
      exact ⟨by rw [core_starter]; exact comp_score_nonneg _ _ _,
        by rw [core_waiver]; exact comp_score_nonneg _ _ _,
        by rw [core_ros]; exact comp_score_nonneg _ _ _⟩
    · have he : analyzePlayer p pool gd = Except.error "KeyError: pos" := by
        unfold analyzePlayer
        rw [hpos]
        exact if_neg hall
      rw [he] at h
      exact Except.noConfusion h

/-- Witness for C3 on a concrete record. -/
theorem claim_C3_witness :
    0 ≤ (analyzePlayerCore qbA "QB" pool5 []).starter_score ∧
    0 ≤ (analyzePlayerCore qbA "QB" pool5 []).waiver_score ∧
    0 ≤ (analyzePlayerCore qbA "QB" pool5 []).ros_score :=
  claim_C3 qbA pool5 [] _ rfl

/-! ## Claim C9: the OUT penalty relative to ACTIVE -/

theorem componentsOf_inj_irrelevant (p : Player) (i j : Option String)
    (pos : String) (pool : List Player) (gd : GameDetails) :
    componentsOf { p with inj := i } pos pool gd =
      componentsOf { p with inj := j } pos pool gd := rfl

/-- Claim C9: with everything else identical, an OUT player's pre-clamp
starter score is exactly 10 points below the ACTIVE player's (the base
weighted sum is injury-independent), the clamp takes it to 0 whenever the
base is at most 10, and the confidence multiplier is applied after the
penalty. -/
theorem claim_C9 (p : Player) (pos : String) (pool : List Player)
    (gd : GameDetails) :
    starterBaseWith (starterWeightsFor pos)
        (componentsOf { p with inj := some "OUT" } pos pool gd) =
      starterBaseWith (starterWeightsFor pos)
        (componentsOf { p with inj := some "ACTIVE" } pos pool gd) ∧
    starterBaseWith (starterWeightsFor pos)
        (componentsOf { p with inj := some "OUT" } pos pool gd) +
        (INJURY_PENALTIES.lookup "OUT").getD 0 =
      starterBaseWith (starterWeightsFor pos)
        (componentsOf { p with inj := some "ACTIVE" } pos pool gd) +
        (INJURY_PENALTIES.lookup "ACTIVE").getD 0 - 10 ∧
    (starterBaseWith (starterWeightsFor pos)
        (componentsOf { p with inj := some "ACTIVE" } pos pool gd) ≤ 10 →
      (analyzePlayerCore { p with inj := some "OUT" } pos pool gd).starter_score = 0) ∧
    (analyzePlayerCore { p with inj := some "OUT" } pos pool gd).starter_score =
      roundTo 2 (apply_injury_penalty
        (starterBaseWith (starterWeightsFor pos)
          (componentsOf { p with inj := some "OUT" } pos pool gd)) "OUT" *
        (CONFIDENCE_MULTIPLIERS.lookup
          (calculate_confidence { p with inj := some "OUT" })).getD 0.90) := by
  have hbase : starterBaseWith (starterWeightsFor pos)
      (componentsOf { p with inj := some "OUT" } pos pool gd) =
    starterBaseWith (starterWeightsFor pos)
      (componentsOf { p with inj := some "ACTIVE" } pos pool gd) := by
    rw [componentsOf_inj_irrelevant p (some "OUT") (some "ACTIVE")]
  have hout : (INJURY_PENALTIES.lookup "OUT").getD 0 = -10 := by
    with_unfolding_all decide
  have hact : (INJURY_PENALTIES.lookup "ACTIVE").getD 0 = 0 := by
    with_unfolding_all decide
  have hcs : (analyzePlayerCore { p with inj := some "OUT" } pos pool gd).starter_score =
      roundTo 2 (apply_injury_penalty
        (starterBaseWith (starterWeightsFor pos)
          (componentsOf { p with inj := some "OUT" } pos pool gd)) "OUT" *
        (CONFIDENCE_MULTIPLIERS.lookup
          (calculate_confidence { p with inj := some "OUT" })).getD 0.90) :=
    core_starter { p with inj := some "OUT" } pos pool gd
  refine ⟨hbase, by rw [hbase, hout, hact]; ring, ?_, hcs⟩
  intro hle
  rw [hcs]
  unfold apply_injury_penalty
  rw [hout]
  have hmax : max (0 : ℚ)
      (starterBaseWith (starterWeightsFor pos)
        (componentsOf { p with inj := some "OUT" } pos pool gd) + -10) = 0 := by
    apply max_eq_left
    rw [hbase]
    linarith
  rw [hmax, zero_mul, roundTo_zero]

/-- Witness for C9: a concrete OUT player whose base starter sum is at most
10 ends with starter_score 0. -/
theorem claim_C9_witness :
    (analyzePlayerCore { qbA with inj := some "OUT" } "QB" pool5 []).starter_score = 0 :=
  (claim_C9 qbA "QB" pool5 []).2.2.1 (by with_unfolding_all decide)

/-! ## Claim C10: unrecognized positions fall back to the WR weights -/

theorem starter_lookup_none {pos : String} (h1 : pos ≠ "QB") (h2 : pos ≠ "RB")
    (h3 : pos ≠ "WR") (h4 : pos ≠ "TE") (h5 : pos ≠ "D/ST") (h6 : pos ≠ "K") :
    starterWeightsFor pos = WR_WEIGHTS := by
  have b1 : (pos == "QB") = false := beq_eq_false_iff_ne.mpr h1
  have b2 : (pos == "RB") = false := beq_eq_false_iff_ne.mpr h2
  have b3 : (pos == "WR") = false := beq_eq_false_iff_ne.mpr h3
  have b4 : (pos == "TE") = false := beq_eq_false_iff_ne.mpr h4
  have b5 : (pos == "D/ST") = false := beq_eq_false_iff_ne.mpr h5
  have b6 : (pos == "K") = false := beq_eq_false_iff_ne.mpr h6
  simp [starterWeightsFor, STARTER_WEIGHTS, List.lookup, b1, b2, b3, b4, b5, b6]

/-- Claim C10: a position string outside the starter table silently gets the
WR weight vector; analyze_player returns a normal analysis rather than an
error, with the starter score computed from the WR weights. -/
theorem claim_C10 (p : Player) (pos : String) (pool : List Player)
    (gd : GameDetails) (hpos : p.pos = some pos)
    (hunk : pos ∉ (["QB", "RB", "WR", "TE", "K", "D/ST"] : List String))
    (hall : pool.all (fun q => q.pos.isSome) = true) :
    starterWeightsFor pos = WR_WEIGHTS ∧
    analyzePlayer p pool gd = Except.ok (analyzePlayerCore p pos pool gd) ∧
    (analyzePlayerCore p pos pool gd).starter_score =
      roundTo 2 (apply_injury_penalty
        (starterBaseWith WR_WEIGHTS (componentsOf p pos pool gd))
        ((p.inj).getD "ACTIVE") *
        (CONFIDENCE_MULTIPLIERS.lookup (calculate_confidence p)).getD 0.90) := by
  simp only [List.mem_cons, List.mem_singleton] at hunk
  push_neg at hunk
  obtain ⟨h1, h2, h3, h4, h6, h5, -⟩ := hunk
  have hW := starter_lookup_none h1 h2 h3 h4 h5 h6
  refine ⟨hW, ?_, ?_⟩
  · unfold analyzePlayer
    rw [hpos]
    exact if_pos hall
  · rw [core_starter, hW]

/-- Witness for C10: a record at position FLEX is scored, not rejected. -/
theorem claim_C10_witness :
    starterWeightsFor "FLEX" = WR_WEIGHTS ∧
    analyzePlayer flexP [flexP] [] =
      Except.ok (analyzePlayerCore flexP "FLEX" [flexP] []) ∧
    (analyzePlayerCore flexP "FLEX" [flexP] []).starter_score =
      roundTo 2 (apply_injury_penalty
        (starterBaseWith WR_WEIGHTS (componentsOf flexP "FLEX" [flexP] []))
        ((flexP.inj).getD "ACTIVE") *
        (CONFIDENCE_MULTIPLIERS.lookup (calculate_confidence flexP)).getD 0.90) :=
  claim_C10 flexP "FLEX" [flexP] [] rfl (by decide) (by rfl)

/-! ## Claim C7: the EWMA helper -/

theorem sum_zipWith_mul (a : List ℚ) :
    ∀ b : List ℚ, (List.zipWith (· * ·) a b).sum =
      ∑ i in Finset.range (min a.length b.length), a.getD i 0 * b.getD i 0 := by
  induction a with
  | nil => intro b; simp
  | cons x xs ih =>
    intro b
    cases b with
    | nil => simp
    | cons y ys =>
      simp only [List.zipWith_cons_cons, List.sum_cons, List.length_cons]
      rw [ih ys]
      have hmin : min (xs.length + 1) (ys.length + 1) =
          min xs.length ys.length + 1 := by omega
      rw [hmin, Finset.sum_range_succ']
      simp only [List.getD_cons_succ, List.getD_cons_zero]
      ring

/-- Claim C7: calculate_ewma returns 0.0 on an empty list; on a nonempty
list it is the weighted sum of the first min(len(games), len(weights))
entries with no renormalization; in particular ewma([10], [0.5,0.3,0.2]) is
5.0 exactly. -/
theorem claim_C7 :
    (∀ w : List ℚ, calculate_ewma [] w = 0) ∧
    (∀ (gs w : List ℚ), gs ≠ [] →
      calculate_ewma gs w =
        roundTo 2 (∑ i in Finset.range (min gs.length w.length),
          gs.getD i 0 * w.getD i 0)) ∧
    calculate_ewma [10] EWMA_WEIGHTS = 5 := by
  refine ⟨fun w => by simp [calculate_ewma], fun gs w hne => ?_,
    by with_unfolding_all decide⟩
  unfold calculate_ewma
  rw [if_neg hne, sum_zipWith_mul]

/-- Witness for C7 on the one-game list. -/
theorem claim_C7_witness :
    calculate_ewma [10] EWMA_WEIGHTS =
      roundTo 2 (∑ i in Finset.range (min ([10] : List ℚ).length
        EWMA_WEIGHTS.length), ([10] : List ℚ).getD i 0 * EWMA_WEIGHTS.getD i 0) :=
  claim_C7.2.1 [10] EWMA_WEIGHTS (by decide)

/-! ## Claim C8: the time-decayed average and its short-history fallback -/

theorem list_map_range_sum (n : ℕ) (wf : ℕ → ℝ) :
    ((List.range n).map wf).sum = ∑ i in Finset.range n, wf i := by
  induction n with
  | zero => simp
  | succ n ih =>
    rw [List.range_succ, List.map_append, List.sum_append,
      Finset.sum_range_succ, ih]
    simp

theorem zip_decay_sum (gs : List ℚ) :
    ∀ wf : ℕ → ℝ,
      (List.zipWith (fun (s : ℚ) (w : ℝ) => (s : ℝ) * w) gs
        ((List.range gs.length).map wf)).sum =
      ∑ i in Finset.range gs.length, (gs.getD i 0 : ℝ) * wf i := by
  induction gs with
  | nil => intro wf; simp
  | cons x xs ih =>
    intro wf
    rw [List.length_cons, List.range_succ_eq_map, List.map_cons, List.map_map]
    simp only [List.zipWith_cons_cons, List.sum_cons]
    rw [ih (wf ∘ Nat.succ), Finset.sum_range_succ']
    simp only [List.getD_cons_succ, List.getD_cons_zero, Function.comp]
    ring

/-- Claim C8: calculate_time_decay_avg returns 0.0 on empty input; inside
analyze_player a history of fewer than 3 games falls back to the raw season
average; with data present the result is the 0.5^(i/half_life)-weighted mean
of the games (rounded to 2 decimals as the source does). -/
theorem claim_C8 :
    (∀ h : ℕ, calculate_time_decay_avg [] h = 0) ∧
    (∀ p : Player, p.last_n.length < 3 → timeDecayAvgOf p = p.avg) ∧
    (∀ (gs : List ℚ) (h : ℕ), gs ≠ [] →
      calculate_time_decay_avg gs h =
        roundToR 2 ((∑ i in Finset.range gs.length,
            (gs.getD i 0 : ℝ) * (1/2 : ℝ) ^ ((i : ℝ) / (h : ℝ))) /
          (∑ i in Finset.range gs.length,
            (1/2 : ℝ) ^ ((i : ℝ) / (h : ℝ))))) := by
  refine ⟨fun h => by unfold calculate_time_decay_avg; rw [if_pos rfl],
    fun p hp => ?_, fun gs h hne => ?_⟩
  · unfold timeDecayAvgOf
    rw [if_neg]
    intro hc
    omega
  · simp only [calculate_time_decay_avg]
    rw [if_neg hne, zip_decay_sum gs, list_map_range_sum]

/-- Witness for C8: the empty history, a 2-game fallback, and a concrete
3-game decayed mean. -/
theorem claim_C8_witness :
    calculate_time_decay_avg [] 6 = 0 ∧
    timeDecayAvgOf twoGameP = twoGameP.avg ∧
    calculate_time_decay_avg [10, 20, 30] 6 =
      roundToR 2 ((∑ i in Finset.range 3,
          (([10, 20, 30] : List ℚ).getD i 0 : ℝ) * (1/2 : ℝ) ^ ((i : ℝ) / (6 : ℝ))) /
        (∑ i in Finset.range 3, (1/2 : ℝ) ^ ((i : ℝ) / (6 : ℝ)))) :=
  ⟨claim_C8.1 6, claim_C8.2.1 twoGameP (by decide),
   claim_C8.2.2 [10, 20, 30] 6 (by decide)⟩

/-! ## Claim C2: the missing weight-table validation -/

/-- Claim C2 (code_bug evidence): every shipped weight table does sum to
1.0, but nothing in the module checks this, and the scoring pipeline
computes a normal starter score from a table summing to 0.90 (the failing
configuration badQbTable) instead of halting. -/
theorem claim_C2 :
    ((QB_WEIGHTS.map (·.2)).sum = 1) ∧
    ((RB_WEIGHTS.map (·.2)).sum = 1) ∧
    ((WR_WEIGHTS.map (·.2)).sum = 1) ∧
    ((TE_WEIGHTS.map (·.2)).sum = 1) ∧
    ((DST_WEIGHTS.map (·.2)).sum = 1) ∧
    ((K_WEIGHTS.map (·.2)).sum = 1) ∧
    ((WAIVER_WEIGHTS.map (·.2)).sum = 1) ∧
    ((ROS_WEIGHTS.map (·.2)).sum = 1) ∧
    ((badQbTable.map (·.2)).sum ≠ 1) ∧
    starterBaseWith badQbTable (componentsOf qbA "QB" pool5 []) = 6 := by
  refine ⟨?_, ?_, ?_, ?_, ?_, ?_, ?_, ?_, ?_, ?_⟩ <;> with_unfolding_all decide

/-! ## Claim C5: the weights checksum -/

theorem digest_fold_bound :
    ∀ (l : List ℕ) (acc k : ℕ), acc < 2 ^ (32 * k) →
      l.foldl (fun a w => a * M32 + w % M32) acc < 2 ^ (32 * (k + l.length)) := by
  intro l
  induction l with
  | nil => intro acc k h; simpa using h
  | cons w ws ih =>
    intro acc k h
    rw [List.foldl_cons]
    have hstep : acc * M32 + w % M32 < 2 ^ (32 * (k + 1)) := by
      have hw : w % M32 < M32 := Nat.mod_lt _ (by norm_num [M32])
      have h1 : acc * M32 + w % M32 < (acc + 1) * M32 := by
        have hx : acc * M32 + w % M32 < acc * M32 + M32 := by omega
        calc acc * M32 + w % M32 < acc * M32 + M32 := hx
          _ = (acc + 1) * M32 := by ring
      have h2 : (acc + 1) * M32 ≤ 2 ^ (32 * k) * 2 ^ 32 := by
        apply Nat.mul_le_mul
        · omega
        · norm_num [M32]
      have hE : 2 ^ (32 * k) * 2 ^ 32 = 2 ^ (32 * (k + 1)) := by
        ring
      calc acc * M32 + w % M32 < (acc + 1) * M32 := h1
        _ ≤ 2 ^ (32 * k) * 2 ^ 32 := h2
        _ = 2 ^ (32 * (k + 1)) := hE
    have h3 := ih (acc * M32 + w % M32) (k + 1) hstep
    have he : 32 * (k + 1 + ws.length) = 32 * (k + (w :: ws).length) := by
      simp [List.length_cons]; ring
    rw [he] at h3
    exact h3

theorem digestNat_lt (st : Hash8) : digestNat st < 2 ^ 256 := by
  have h := digest_fold_bound [st.a, st.b, st.c, st.d, st.e, st.f, st.g, st.h]
    0 0 (by norm_num)
  have hlen : ([st.a, st.b, st.c, st.d, st.e, st.f, st.g, st.h] : List ℕ).length = 8 := rfl
  rw [hlen] at h
  have he : 32 * (0 + 8) = 256 := by norm_num
  rw [he] at h
  exact h

theorem checksumNat_lt (s : String) :
    sha256Nat (strBytes s) / 2 ^ 224 < 2 ^ 32 := by
  rw [Nat.div_lt_iff_lt_mul (by positivity)]
  calc sha256Nat (strBytes s) = digestNat (sha256Words (strBytes s)) := rfl
    _ < 2 ^ 256 := digestNat_lt _
    _ ≤ 2 ^ 32 * 2 ^ 224 := by rw [← pow_add]

/-- Counterexample to C5 as stated: the checksum keeps only 8 hex characters
(32 bits) of the SHA-256 digest, so among the infinitely many values a
single weight can take, two distinct ones collide; changing that weight from
one to the other changes the table but not the checksum. -/
theorem claim_C5_counterexample :
    ¬ ∀ (x y : ℚ), x ≠ y →
      calculate_weights_checksum (modWaiver x) ≠
        calculate_weights_checksum (modWaiver y) := by
  intro hall
  obtain ⟨x, y, hxy, hg⟩ := Finite.exists_ne_map_eq_of_infinite
    (fun x : ℚ => (⟨sha256Nat (strBytes (json_dumps_flat (modWaiver x))) / 2 ^ 224,
      checksumNat_lt _⟩ : Fin (2 ^ 32)))
  apply hall x y hxy
  unfold calculate_weights_checksum checksum_of_string
  have hv : sha256Nat (strBytes (json_dumps_flat (modWaiver x))) / 2 ^ 224 =
      sha256Nat (strBytes (json_dumps_flat (modWaiver y))) / 2 ^ 224 :=
    congrArg Fin.val hg
  rw [hv]

/-- Claim C5 as amended: the checksum in a PlayerAnalysis is a function of
the weight tables alone - identical across all players, pools and game
contexts - and recomputing the checksum of the same table always gives the
same string; what fails is only the injectivity half (see the
counterexample). -/
theorem claim_C5 :
    (∀ (p1 : Player) (pos1 : String) (pool1 : List Player) (gd1 : GameDetails)
      (p2 : Player) (pos2 : String) (pool2 : List Player) (gd2 : GameDetails),
      (analyzePlayerCore p1 pos1 pool1 gd1).weights_checksum =
        (analyzePlayerCore p2 pos2 pool2 gd2).weights_checksum) ∧
    (∀ w : List (String × ℚ),
      calculate_weights_checksum w = calculate_weights_checksum w) :=
  ⟨fun _ _ _ _ _ _ _ _ => rfl, fun _ => rfl⟩

/-! ## Claim C6: per-record failure isolation in analyze_players -/

theorem lookup_isSome_mem {m : List (String × PlayerAnalysis)} {pid : String}
    (h : (m.lookup pid).isSome = true) : pid ∈ m.map (·.1) := by
  induction m with
  | nil => simp [List.lookup] at h
  | cons a t ih =>
    obtain ⟨ka, va⟩ := a
    simp only [List.lookup] at h
    by_cases hk : (pid == ka) = true
    · have he : pid = ka := eq_of_beq hk
      simp [he]
    · have hk' : (pid == ka) = false := by
        simpa using hk
      rw [hk'] at h
      simp only [List.map_cons, List.mem_cons]
      right
      exact ih h

theorem insertReplace_keys (m : List (String × PlayerAnalysis)) (pid : String)
    (v : PlayerAnalysis) (k : String) :
    k ∈ (insertReplace m pid v).map (·.1) ↔ (k ∈ m.map (·.1) ∨ k = pid) := by
  unfold insertReplace
  split
  · rename_i hsome
    have hkeys : (m.map (fun kv => if kv.1 = pid then (pid, v) else kv)).map (·.1) =
        m.map (·.1) := by
      rw [List.map_map]
      apply List.map_congr_left
      intro kv _
      by_cases hkv : kv.1 = pid
      · simp [hkv]
      · simp [hkv]
    rw [hkeys]
    have hpid : pid ∈ m.map (·.1) := lookup_isSome_mem hsome
    constructor
    · exact Or.inl
    · rintro (h | rfl)
      · exact h
      · exact hpid
  · rw [List.map_append]
    simp

theorem analyzeStep_none (pool : List Player) (gd : GameDetails)
    (acc : List (String × PlayerAnalysis) × List String) {p : Player}
    (hid : p.id = none) : analyzeStep pool gd acc p = acc := by
  unfold analyzeStep
  rw [hid]

theorem analyzeStep_some (pool : List Player) (gd : GameDetails)
    (acc : List (String × PlayerAnalysis) × List String) {p : Player}
    {pid : String} (hid : p.id = some pid) :
    analyzeStep pool gd acc p =
      if pid = "" then acc else analyzeRecord pool gd acc p pid := by
  unfold analyzeStep
  rw [hid]

theorem analyzeRecord_ok (pool : List Player) (gd : GameDetails)
    (acc : List (String × PlayerAnalysis) × List String) {p : Player}
    (pid : String) {a : PlayerAnalysis}
    (han : analyzePlayer p pool gd = Except.ok a) :
    analyzeRecord pool gd acc p pid = (insertReplace acc.1 pid a, acc.2) := by
  unfold analyzeRecord
  rw [han]

theorem analyzeRecord_err (pool : List Player) (gd : GameDetails)
    (acc : List (String × PlayerAnalysis) × List String) {p : Player}
    (pid : String) {e : String}
    (han : analyzePlayer p pool gd = Except.error e) :
    analyzeRecord pool gd acc p pid =
      (acc.1, acc.2 ++
        ["Error analyzing " ++ (p.name).getD "Unknown" ++ ": " ++ e]) := by
  unfold analyzeRecord
  rw [han]

theorem step_keys (pool : List Player) (gd : GameDetails)
    (acc : List (String × PlayerAnalysis) × List String) (p : Player)
    (k : String) :
    k ∈ (analyzeStep pool gd acc p).1.map (·.1) ↔
      (k ∈ acc.1.map (·.1) ∨ (p.id = some k ∧ k ≠ "" ∧
        (analyzePlayer p pool gd).isOk = true)) := by
  rcases hid : p.id with _ | pid
  · rw [analyzeStep_none pool gd acc hid]
    simp
  · rw [analyzeStep_some pool gd acc hid]
    by_cases hpid : pid = ""
    · subst hpid
      rw [if_pos rfl]
      constructor
      · exact Or.inl
      · rintro (h | ⟨hk, hne, -⟩)
        · exact h
        · exact absurd (Option.some_injective _ hk).symm hne
    · rw [if_neg hpid]
      rcases han : analyzePlayer p pool gd with e | a
      · rw [analyzeRecord_err pool gd acc pid han]
        constructor
        · exact Or.inl
        · rintro (h | ⟨-, -, hok⟩)
          · exact h
          · exact absurd hok (by simp [Except.isOk, Except.toBool])
      · rw [analyzeRecord_ok pool gd acc pid han]
        rw [show (insertReplace acc.1 pid a, acc.2).1 = insertReplace acc.1 pid a from rfl]
        rw [insertReplace_keys]
        constructor
        · rintro (h | rfl)
          · exact Or.inl h
          · exact Or.inr ⟨rfl, hpid, rfl⟩
        · rintro (h | ⟨hk, -, -⟩)
          · exact Or.inl h
          · exact Or.inr (Option.some_injective _ hk).symm

theorem foldl_keys (pool : List Player) (gd : GameDetails) :
    ∀ (l : List Player) (acc : List (String × PlayerAnalysis) × List String)
      (k : String),
      k ∈ (l.foldl (analyzeStep pool gd) acc).1.map (·.1) ↔
        (k ∈ acc.1.map (·.1) ∨ ∃ p ∈ l, p.id = some k ∧ k ≠ "" ∧
          (analyzePlayer p pool gd).isOk = true) := by
  intro l
  induction l with
  | nil => intro acc k; simp
  | cons p ps ih =>
    intro acc k
    rw [List.foldl_cons, ih, step_keys]
    constructor
    · rintro (⟨h | hp⟩ | ⟨q, hq, hqq⟩)
      · exact Or.inl h
      · exact Or.inr ⟨p, List.mem_cons_self p ps, hp⟩
      · exact Or.inr ⟨q, List.mem_cons_of_mem p hq, hqq⟩
    · rintro (h | ⟨q, hq, hqq⟩)
      · exact Or.inl (Or.inl h)
      · rcases List.mem_cons.mp hq with rfl | hq'
        · exact Or.inl (Or.inr hqq)
        · exact Or.inr ⟨q, hq', hqq⟩

theorem hasGoodId_none {p : Player} (hid : p.id = none) :
    hasGoodId p = false := by
  unfold hasGoodId
  rw [hid]

theorem hasGoodId_some {p : Player} {pid : String} (hid : p.id = some pid) :
    hasGoodId p = (pid != "") := by
  unfold hasGoodId
  rw [hid]

theorem step_log_len (pool : List Player) (gd : GameDetails)
    (acc : List (String × PlayerAnalysis) × List String) (p : Player) :
    (analyzeStep pool gd acc p).2.length = acc.2.length +
      (if hasGoodId p && !(analyzePlayer p pool gd).isOk then 1 else 0) := by
  rcases hid : p.id with _ | pid
  · rw [analyzeStep_none pool gd acc hid, hasGoodId_none hid]
    simp
  · rw [analyzeStep_some pool gd acc hid, hasGoodId_some hid]
    by_cases hpid : pid = ""
    · subst hpid
      simp
    · rw [if_neg hpid]
      have hb : (pid != "") = true := by simpa using hpid
      rcases han : analyzePlayer p pool gd with e | a
      · rw [analyzeRecord_err pool gd acc pid han]
        simp [Except.isOk, Except.toBool, hb]
      · rw [analyzeRecord_ok pool gd acc pid han]
        simp [Except.isOk, Except.toBool, hb]

theorem foldl_log_len (pool : List Player) (gd : GameDetails) :
    ∀ (l : List Player) (acc : List (String × PlayerAnalysis) × List String),
      (l.foldl (analyzeStep pool gd) acc).2.length = acc.2.length +
        (l.filter (fun p => hasGoodId p && !(analyzePlayer p pool gd).isOk)).length := by
  intro l
  induction l with
  | nil => intro acc; simp
  | cons p ps ih =>
    intro acc
    rw [List.foldl_cons, ih, step_log_len, List.filter_cons]
    by_cases hp : (hasGoodId p && !(analyzePlayer p pool gd).isOk) = true
    · simp [hp]
      omega
    · have hp' : (hasGoodId p && !(analyzePlayer p pool gd).isOk) = false := by
        simpa using hp
      simp [hp']

/-- Counterexample to C6 as stated: a record with no id is excluded from the
output, but silently - analyze_players emits no error line and no count for
it (the log component stays empty). -/
theorem claim_C6_counterexample :
    (analyze_players [noIdP, goodP] []).2 = [] ∧
    (analyze_players [noIdP, goodP] []).1.map (·.1) = ["g1"] := by
  constructor <;> with_unfolding_all decide

/-- Claim C6 as amended: failures are isolated - the output contains exactly
the ids of records with a truthy id whose analysis succeeds, so one bad
record never aborts the batch or evicts another player; records whose
analysis raises are counted in the printed error lines, but records with a
missing or falsy id are skipped without any trace. -/
theorem claim_C6 (players : List Player) (gd : GameDetails) :
    (∀ k : String,
      k ∈ (analyze_players players gd).1.map (·.1) ↔
        ∃ p ∈ players, p.id = some k ∧ k ≠ "" ∧
          (analyzePlayer p players gd).isOk = true) ∧
    (analyze_players players gd).2.length =
      (players.filter (fun p => hasGoodId p &&
        !(analyzePlayer p players gd).isOk)).length := by
  constructor
  · intro k
    have h := foldl_keys players gd players ([], []) k
    simpa using h
  · have h := foldl_log_len players gd players ([], [])
    simpa using h

/-- Witness for C6: the well-formed record of the counterexample pool
appears in the output. -/
theorem claim_C6_witness :
    "g1" ∈ (analyze_players [noIdP, goodP] []).1.map (·.1) :=
  ((claim_C6 [noIdP, goodP] []).1 "g1").mpr
    ⟨goodP, List.mem_cons_of_mem noIdP (List.mem_cons_self goodP []),
      rfl, by decide, rfl⟩

end PlayerScoring
